import Mathlib

/-!
Shallow embedding of the Goesi library (a Go client for the EVE Swagger
Interface): the response cache with HTTP-driven expiration (cache.go) and the
API client orchestration (lib.go).  Machine-level collaborators (HTTP
transport, JSON parsing) are passed in as explicit functions; time.Time values
are modelled as Unix epoch seconds (Int); Go errors are modelled with Except.
-/

namespace Goesi

/-! ### Expiry parsing: model of Go time.Parse on layout "Mon, 02 Jan 2006 15:04:05 MST"

getExpiration (cache.go) calls time.Parse with the single layout
"Mon, 02 Jan 2006 15:04:05 MST".  The functions below model Go stdlib
time.Parse restricted to that layout: short day name (case-insensitive,
unvalidated against the date), literal ", ", two-digit day, short month name,
four-digit year, 1-2 digit hour, two-digit minute and second, an optional
fractional-second suffix of at most nine digits, and a timezone token
consuming the remainder of the input.  All accepted timezone abbreviations
yield offset zero (Go fabricates a zero-offset zone for unknown names and the
tests use GMT), so the parse result is an absolute epoch timestamp. -/

def digitVal (c : Char) : Nat := c.toNat - 48

/-- chMatch models Go time's byte match: equal, or equal ignoring ASCII case. -/
def chMatch (a b : Char) : Bool :=
  a = b ||
    (let la := Char.ofNat (a.toNat ||| 32)
     let lb := Char.ofNat (b.toNat ||| 32)
     la = lb && decide ('a' ≤ la) && decide (la ≤ 'z'))

/-- prefixCI models Go time's lookup prefix match: if the name (first list) is a
case-insensitive prefix of the value, return the remainder of the value. -/
def prefixCI : List Char → List Char → Option (List Char)
  | [], s => some s
  | _ :: _, [] => none
  | p :: ps, c :: cs => if chMatch p c then prefixCI ps cs else none

/-- lookupName models Go time's lookup over a table of names, returning the
index of the matching name and the remaining input. -/
def lookupName : List String → List Char → Option (Nat × List Char)
  | [], _ => none
  | n :: ns, s =>
    match prefixCI n.data s with
    | some rest => some (0, rest)
    | none =>
      match lookupName ns s with
      | some (i, rest) => some (i + 1, rest)
      | none => none

def shortDayNames : List String := ["Sun", "Mon", "Tue", "Wed", "Thu", "Fri", "Sat"]

def shortMonthNames : List String :=
  ["Jan", "Feb", "Mar", "Apr", "May", "Jun", "Jul", "Aug", "Sep", "Oct", "Nov", "Dec"]

/-- expectLit consumes an exact literal (first list) from the input. -/
def expectLit : List Char → List Char → Option (List Char)
  | [], s => some s
  | _ :: _, [] => none
  | l :: ls, c :: cs => if c = l then expectLit ls cs else none

/-- num2 models Go time's getnum with fixed width: exactly two digits. -/
def num2 : List Char → Option (Nat × List Char)
  | a :: b :: rest =>
    if a.isDigit && b.isDigit then some (digitVal a * 10 + digitVal b, rest) else none
  | _ => none

/-- num1or2 models Go time's getnum without fixed width: one or two digits. -/
def num1or2 : List Char → Option (Nat × List Char)
  | [] => none
  | a :: rest =>
    if a.isDigit then
      match rest with
      | b :: rest2 =>
        if b.isDigit then some (digitVal a * 10 + digitVal b, rest2) else some (digitVal a, rest)
      | [] => some (digitVal a, [])
    else none

/-- num4 models Go time's four-digit year parse: exactly four digits. -/
def num4 : List Char → Option (Nat × List Char)
  | a :: b :: c :: d :: rest =>
    if a.isDigit && b.isDigit && c.isDigit && d.isDigit then
      some (((digitVal a * 10 + digitVal b) * 10 + digitVal c) * 10 + digitVal d, rest)
    else none
  | _ => none

/-- skipFraction models Go time.Parse's special case after the seconds field: an
optional period or comma followed by one to nine digits is consumed (ten or
more fractional digits are out of range and fail the parse). -/
def skipFraction (s : List Char) : Option (List Char) :=
  match s with
  | c :: d :: rest =>
    if (c = '.' || c = ',') && d.isDigit then
      let digits := List.takeWhile Char.isDigit (d :: rest)
      if digits.length ≤ 9 then some (List.dropWhile Char.isDigit (d :: rest)) else none
    else some s
  | _ => some s

def digitsToNat (s : List Char) : Nat := s.foldl (fun acc c => acc * 10 + digitVal c) 0

/-- validSignedOffset models Go time's parseSignedOffset consuming the whole
remaining input: a sign, then at least one digit, value at most 23. -/
def validSignedOffset (s : List Char) : Bool :=
  match s with
  | c :: rest =>
    (c = '+' || c = '-') && !rest.isEmpty && rest.all Char.isDigit &&
      decide (digitsToNat rest ≤ 23)
  | [] => false

/-- validZone models Go time's parseTimeZone with the additional requirement of
time.Parse that the zone token consume the whole remaining input: ChST and
MeST, GMT with an optional signed hour offset, a bare signed offset, or three
to five upper-case letters (four or five only when ending in T, plus WITA). -/
def validZone (s : List Char) : Bool :=
  if s.length < 3 then false
  else if s = "ChST".data || s = "MeST".data then true
  else if s.take 3 = "GMT".data then s.drop 3 = [] || validSignedOffset (s.drop 3)
  else if s.head? = some '+' || s.head? = some '-' then validSignedOffset s
  else
    let upper := (s.takeWhile Char.isUpper).length
    if upper != s.length then false
    else if s.length = 3 then true
    else if s.length = 4 then s.drop 3 = ['T'] || s = "WITA".data
    else if s.length = 5 then s.drop 4 = ['T']
    else false

/-- ExpFields is the set of calendar fields produced by a successful parse of
the Expires header layout. -/
structure ExpFields where
  day : Nat
  month : Nat
  year : Nat
  hour : Nat
  minute : Nat
  second : Nat
  deriving DecidableEq, Repr

/-- parseExpiresFields is the lexical part of the model of Go time.Parse on the
layout used by getExpiration; it returns the parsed calendar fields when the
input matches the layout shape, before range validation. -/
def parseExpiresFields (s : String) : Option ExpFields := do
  let s0 := s.data
  let (_, s1) ← lookupName shortDayNames s0
  let s2 ← expectLit ", ".data s1
  let (day, s3) ← num2 s2
  let s4 ← expectLit " ".data s3
  let (mIdx, s5) ← lookupName shortMonthNames s4
  let s6 ← expectLit " ".data s5
  let (year, s7) ← num4 s6
  let s8 ← expectLit " ".data s7
  let (hour, s9) ← num1or2 s8
  let s10 ← expectLit ":".data s9
  let (minute, s11) ← num2 s10
  let s12 ← expectLit ":".data s11
  let (second, s13) ← num2 s12
  let s14 ← skipFraction s13
  let s15 ← expectLit " ".data s14
  if validZone s15 then
    some { day := day, month := mIdx + 1, year := year, hour := hour,
           minute := minute, second := second }
  else none

def isLeapYear (y : Nat) : Bool := y % 4 = 0 && (y % 100 != 0 || y % 400 = 0)

def daysInMonth (m y : Nat) : Nat :=
  if m = 2 then (if isLeapYear y then 29 else 28)
  else if m = 4 || m = 6 || m = 9 || m = 11 then 30
  else 31

/-- fieldsValid models Go time.Parse's range checks: hour, minute and second in
range, and the day within the parsed month and year. -/
def fieldsValid (f : ExpFields) : Bool :=
  decide (f.hour < 24) && decide (f.minute < 60) && decide (f.second < 60) &&
    decide (1 ≤ f.day) && decide (f.day ≤ daysInMonth f.month f.year)

/-- daysFromCivil converts a proleptic Gregorian date to days since 1970-01-01. -/
def daysFromCivil (y m d : Int) : Int :=
  let yy := if m ≤ 2 then y - 1 else y
  let era := (if 0 ≤ yy then yy else yy - 399) / 400
  let yoe := yy - era * 400
  let mp := (m + 9) % 12
  let doy := (153 * mp + 2) / 5 + d - 1
  let doe := yoe * 365 + yoe / 4 - yoe / 100 + doy
  era * 146097 + doe - 719468

/-- epochOfFields converts parsed calendar fields (at offset zero) to Unix
epoch seconds, the model of the absolute time.Time produced by time.Parse. -/
def epochOfFields (f : ExpFields) : Int :=
  daysFromCivil (f.year : Int) (f.month : Int) (f.day : Int) * 86400
    + (f.hour : Int) * 3600 + (f.minute : Int) * 60 + (f.second : Int)

/-- getExpiration models cache.go getExpiration: parse the Expires header value
with the single layout "Mon, 02 Jan 2006 15:04:05 MST" and no fallback
formats, returning the absolute timestamp or a parse error. -/
def getExpiration (s : String) : Except String Int :=
  match parseExpiresFields s with
  | none => Except.error "cannot parse value as expiration timestamp"
  | some f =>
    if fieldsValid f then Except.ok (epochOfFields f)
    else Except.error "expiration timestamp field out of range"

/-- matchesExpiresFormat holds exactly when the input matches the single
RFC 1123-style layout accepted by getExpiration, field ranges included. -/
def matchesExpiresFormat (s : String) : Bool :=
  match parseExpiresFields s with
  | some f => fieldsValid f
  | none => false

/-! ### Response cache (cache.go)

The Go cache is a map from URL string to CacheEntry, mutated through a pointer
receiver.  It is modelled as an association list with unique keys: map
assignment is erase-then-cons, map delete is a filter, and the mutation of the
receiver is made explicit by returning the updated cache.  The stored
gabs.Container document is an opaque parsed-JSON value, modelled by a type
parameter. -/

/-- CacheEntry models cache.go CacheEntry: a parsed document and its absolute
expiration timestamp. -/
structure CacheEntry (δ : Type) where
  Data : δ
  Expires : Int
  deriving DecidableEq, Repr

/-- Cache models cache.go Cache, a map from URL to CacheEntry. -/
def Cache (δ : Type) : Type := List (String × CacheEntry δ)

instance {δ : Type} [DecidableEq δ] : DecidableEq (Cache δ) :=
  inferInstanceAs (DecidableEq (List (String × CacheEntry δ)))

/-- Cache.lookup models reading the map at a key: the entry stored for a URL,
if any. -/
def Cache.lookup {δ : Type} (c : Cache δ) (u : String) : Option (CacheEntry δ) :=
  match List.find? (fun p => p.1 == u) c with
  | some p => some p.2
  | none => none

/-- Cache.eraseKey models Go map delete at a key. -/
def Cache.eraseKey {δ : Type} (c : Cache δ) (u : String) : Cache δ :=
  List.filter (fun p => !(p.1 == u)) c

/-- Cache.insert models Go map assignment at a key: overwrite any prior entry. -/
def Cache.insert {δ : Type} (c : Cache δ) (u : String) (entry : CacheEntry δ) : Cache δ :=
  (u, entry) :: Cache.eraseKey c u

/-- Cache.get models cache.go Cache.get: return the entry for the URL if it is
present and not expired; an entry whose expiration is strictly before now
(Go time.Time.Before) is deleted from the map and treated as a miss.  The
current UTC time is passed explicitly; the updated map is returned alongside
the result. -/
def Cache.get {δ : Type} (c : Cache δ) (u : String) (now : Int) : Option δ × Cache δ :=
  match Cache.lookup c u with
  | none => (none, c)
  | some entry =>
    if entry.Expires < now then (none, Cache.eraseKey c u)
    else (some entry.Data, c)

/-- Cache.set models cache.go Cache.set: parse the Expires header value via
getExpiration; on failure return the error (the map is not modified — in this
functional model no updated map is produced); on success store the entry for
the URL, overwriting any prior entry. -/
def Cache.set {δ : Type} (c : Cache δ) (u : String) (d : δ) (h : String) :
    Except String (Cache δ) :=
  match getExpiration h with
  | Except.error err => Except.error err
  | Except.ok expires => Except.ok (Cache.insert c u (CacheEntry.mk d expires))

/-! ### API client (lib.go)

The ESI struct owns the cache; the http.Client is not part of the state, the
transport is instead passed to each operation as a function from the request
data to the response (Except models a failed round trip, covering request
construction, network and body-read errors).  JSON parsing
(gabs.ParseJSONBuffer, json.Unmarshal) is likewise passed in as a function
returning an Option. -/

/-- ESI models the lib.go ESI struct (the http.Client field is replaced by
explicit transport arguments to each operation). -/
structure ESI (δ : Type) where
  cache : Cache δ
  Version : String
  ClientID : String
  ClientSecret : String
  ClientCallbackURL : String
  UserAgent : String
  Scope : String
  AccessToken : String
  RefreshToken : String
  deriving DecidableEq

def BaseURL : String := "https://esi.tech.ccp.is/"

def OauthURL : String := "https://login.eveonline.com/oauth/"

def TokenURL : String := "https://login.eveonline.com/oauth/token"

def VerifyURL : String := "https://login.eveonline.com/oauth/verify"

def AuthorizeURL : String := "https://login.eveonline.com/oauth/authorize"

/-- New models lib.go New: a fresh ESI value with an empty cache. -/
def New {δ : Type} (clientID clientSecret clientCallbackURL : String) : ESI δ :=
  { cache := [], Version := "latest", ClientID := clientID,
    ClientSecret := clientSecret, ClientCallbackURL := clientCallbackURL,
    UserAgent := "github.com/Celeo/Goesi", Scope := "", AccessToken := "",
    RefreshToken := "" }

/-- ClearCache models lib.go ESI.ClearCache: replace the cache with an empty one. -/
def ESI.ClearCache {δ : Type} (e : ESI δ) : ESI δ := { e with cache := [] }

/-- GetAuthorizeURL models lib.go ESI.GetAuthorizeURL; the fmt.Sprintf call
with only %s verbs is modelled as string concatenation. -/
def ESI.GetAuthorizeURL {δ : Type} (e : ESI δ) : Except String String :=
  if e.ClientID = "" ∨ e.ClientSecret = "" ∨ e.ClientCallbackURL = "" then
    Except.error "Missing client data - cannot generate callback URL"
  else
    Except.ok (AuthorizeURL ++ "?response_type=code&redirect_uri=" ++ e.ClientCallbackURL
      ++ "&client_id=" ++ e.ClientID ++ "&scope=" ++ e.Scope)

/-- FmtArg is an argument to the fmt.Sprintf model: an integer (%d) or a
string (%s). -/
inductive FmtArg where
  | int (i : Int)
  | str (s : String)
  deriving DecidableEq

/-- runFmt models fmt.Sprintf substitution for well-formed uses of the %d, %s
and %% verbs, as used with Get path templates. -/
def runFmt : List Char → List FmtArg → List Char
  | '%' :: 'd' :: rest, FmtArg.int i :: args => (toString i).data ++ runFmt rest args
  | '%' :: 's' :: rest, FmtArg.str s :: args => s.data ++ runFmt rest args
  | '%' :: '%' :: rest, args => '%' :: runFmt rest args
  | c :: rest, args => c :: runFmt rest args
  | [], _ => []

/-- sprintf models fmt.Sprintf on a path template. -/
def sprintf (template : String) (args : List FmtArg) : String :=
  String.mk (runFmt template.data args)

/-- Response models the data ESI.Get and ESI.Post read from an http.Response:
the Expires header value (http.Header.Get, empty string when absent) and the
body. -/
structure Response where
  expiresHeader : String
  body : String
  deriving DecidableEq

/-- AuthenticateResponse models the lib.go authenticateResponse struct, the
shape json.Unmarshal targets during Authenticate. -/
structure AuthenticateResponse where
  AccessToken : String
  TokenType : String
  ExpiresIn : Int
  RefreshToken : String
  deriving DecidableEq

deriving instance DecidableEq for Except

/-- GetResult packages what a Get or Post call produces: the returned value or
error, the ESI state after the call (the cache may have been mutated), and how
many transport round trips were performed. -/
structure GetResult (δ : Type) where
  result : Except String δ
  state : ESI δ
  calls : Nat
  deriving DecidableEq

/-- ESI.Get models lib.go ESI.Get: build the URL from the formatted path, try
the cache (which may evict an expired entry), on a hit return the cached
document with no transport call, on a miss perform one GET round trip, parse
the body as JSON, store it in the cache keyed by the URL using the Expires
header (the error returned by Cache.set is discarded, as in the source), and
return the document. -/
def ESI.Get {δ : Type} (e : ESI δ) (transport : String → Except String Response)
    (parseJSON : String → Option δ) (now : Int) (path : String) (args : List FmtArg) :
    GetResult δ :=
  let url := BaseURL ++ e.Version ++ "/" ++ sprintf path args ++ "/"
  let looked := Cache.get e.cache url now
  match looked.1 with
  | some d => ⟨Except.ok d, { e with cache := looked.2 }, 0⟩
  | none =>
    match transport url with
    | Except.error err => ⟨Except.error err, { e with cache := looked.2 }, 1⟩
    | Except.ok resp =>
      match parseJSON resp.body with
      | none =>
        ⟨Except.error "Error converting response body to Gabs container",
         { e with cache := looked.2 }, 1⟩
      | some doc =>
        match Cache.set looked.2 url doc resp.expiresHeader with
        | Except.error _ => ⟨Except.ok doc, { e with cache := looked.2 }, 1⟩
        | Except.ok c2 => ⟨Except.ok doc, { e with cache := c2 }, 1⟩

/-- ESI.Post models lib.go ESI.Post: build the URL from the path with no
argument substitution, perform one POST round trip with the raw body, parse
the response body as JSON and return it; the cache is neither read nor
written. -/
def ESI.Post {δ : Type} (e : ESI δ) (transport : String → String → Except String Response)
    (parseJSON : String → Option δ) (path : String) (body : String) : GetResult δ :=
  let url := BaseURL ++ e.Version ++ "/" ++ path ++ "/"
  match transport url body with
  | Except.error err => ⟨Except.error err, e, 1⟩
  | Except.ok resp =>
    match parseJSON resp.body with
    | none => ⟨Except.error "Error converting response body to Gabs container", e, 1⟩
    | some doc => ⟨Except.ok doc, e, 1⟩

/-- ESI.Authenticate models lib.go ESI.Authenticate: the transport argument
maps the authorization code (which determines the form body) to the HTTP
status and body of the token-endpoint response, with Except covering request
construction, network and body-read failures; unmarshal models json.Unmarshal
into authenticateResponse.  An empty body or a non-200 status is rejected
(with the source's single error message for both); on success the access and
refresh tokens are stored into the ESI state, overwriting prior values. -/
def ESI.Authenticate {δ : Type} (e : ESI δ)
    (transport : String → Except String (Nat × String))
    (unmarshal : String → Option AuthenticateResponse) (code : String) :
    Except String Unit × ESI δ :=
  match transport code with
  | Except.error err => (Except.error err, e)
  | Except.ok (status, body) =>
    if body = "" ∨ status ≠ 200 then (Except.error "Response body is empty", e)
    else
      match unmarshal body with
      | none => (Except.error "cannot unmarshal response body", e)
      | some r =>
        (Except.ok (),
         { e with AccessToken := r.AccessToken, RefreshToken := r.RefreshToken })

/-! ### Helper lemmas -/

theorem lookup_eraseKey {δ : Type} (c : Cache δ) (u : String) :
    Cache.lookup (Cache.eraseKey c u) u = none := by
  induction c with
  | nil => rfl
  | cons p rest ih =>
    simp only [Cache.eraseKey, List.filter] at *
    cases hpu : (p.1 == u) with
    | true => simpa using ih
    | false =>
      simp only [Bool.not_false]
      simp only [Cache.lookup, List.find?, hpu] at *
      exact ih

theorem lookup_insert {δ : Type} (c : Cache δ) (u : String) (entry : CacheEntry δ) :
    Cache.lookup (Cache.insert c u entry) u = some entry := by
  simp [Cache.insert, Cache.lookup, List.find?]

theorem get_none_lookup {δ : Type} (c : Cache δ) (u : String) (now : Int)
    (h : (Cache.get c u now).1 = none) :
    Cache.lookup (Cache.get c u now).2 u = none := by
  cases hl : Cache.lookup c u with
  | none => simp [Cache.get, hl]
  | some entry =>
    by_cases hex : entry.Expires < now
    · simp [Cache.get, hl, hex, lookup_eraseKey]
    · simp [Cache.get, hl, hex] at h

/-! ### Claims -/

/-- C1 (amended): for every cache state, url and current time, Cache.get with
an absent key returns empty and leaves the cache unchanged; with a present
entry whose expiration is strictly before the current time it removes the
entry and returns empty; with a present entry whose expiration is at or after
the current time it returns the stored document and performs no mutation, so
eviction of a strictly-expired entry is the only mutation a read performs.
(The original claim treated an entry whose expiration equals the current time
as expired; the code keeps and returns such an entry.) -/
theorem C1_cache_get_spec {δ : Type} (c : Cache δ) (u : String) (now : Int) :
    (Cache.lookup c u = none → Cache.get c u now = (none, c)) ∧
    (∀ entry : CacheEntry δ, Cache.lookup c u = some entry →
      (entry.Expires < now → Cache.get c u now = (none, Cache.eraseKey c u)) ∧
      (now ≤ entry.Expires → Cache.get c u now = (some entry.Data, c))) := by
  constructor
  · intro h
    simp [Cache.get, h]
  · intro entry h
    constructor
    · intro hlt
      simp [Cache.get, h, hlt]
    · intro hge
      simp [Cache.get, h, Int.not_lt.mpr hge]

/-- C1 counterexample: with the entry for "u" expiring exactly at the current
time (expiration at, not before, now), the claim requires eviction and an
empty result, but Cache.get returns the stored document and leaves the cache
unchanged. -/
theorem C1_counterexample :
    (CacheEntry.mk (0 : Nat) 5).Expires ≤ 5 ∧
    Cache.get ([("u", CacheEntry.mk (0 : Nat) 5)] : Cache Nat) "u" 5
      = (some 0, [("u", CacheEntry.mk (0 : Nat) 5)]) := by
  constructor
  · decide
  · decide

/-- C1 witness: the amended theorem applied to a one-entry cache whose entry
expires at time 10, read at time 4. -/
theorem C1_cache_get_spec_witness :
    Cache.get ([("u", CacheEntry.mk (3 : Nat) 10)] : Cache Nat) "u" 4
      = (some 3, [("u", CacheEntry.mk (3 : Nat) 10)]) :=
  ((C1_cache_get_spec ([("u", CacheEntry.mk (3 : Nat) 10)] : Cache Nat) "u" 4).2
      (CacheEntry.mk 3 10) (by decide)).2 (by decide)

/-- C4: Cache.set parses the header value via getExpiration; when parsing
fails it returns the parse error and produces no modified cache; when parsing
succeeds it unconditionally overwrites the entry for the url with the document
and parsed expiry, so after two successful sets on the same url only the
second document is stored (last-write-wins). -/
theorem C4_cache_set_spec {δ : Type} (c : Cache δ) (u : String) (d : δ) (h : String) :
    (∀ msg, getExpiration h = Except.error msg → Cache.set c u d h = Except.error msg) ∧
    (∀ t, getExpiration h = Except.ok t →
        Cache.set c u d h = Except.ok (Cache.insert c u (CacheEntry.mk d t)) ∧
        Cache.lookup (Cache.insert c u (CacheEntry.mk d t)) u = some (CacheEntry.mk d t)) ∧
    (∀ h2 d2 t t2, getExpiration h = Except.ok t → getExpiration h2 = Except.ok t2 →
        ∃ c2, Cache.set c u d h = Except.ok c2 ∧
          ∃ c3, Cache.set c2 u d2 h2 = Except.ok c3 ∧
            Cache.lookup c3 u = some (CacheEntry.mk d2 t2)) := by
  refine ⟨?_, ?_, ?_⟩
  · intro msg hmsg
    simp [Cache.set, hmsg]
  · intro t ht
    exact ⟨by simp [Cache.set, ht], lookup_insert c u (CacheEntry.mk d t)⟩
  · intro h2 d2 t t2 ht ht2
    exact ⟨Cache.insert c u (CacheEntry.mk d t), by simp [Cache.set, ht],
      Cache.insert (Cache.insert c u (CacheEntry.mk d t)) u (CacheEntry.mk d2 t2),
      by simp [Cache.set, ht2],
      lookup_insert (Cache.insert c u (CacheEntry.mk d t)) u (CacheEntry.mk d2 t2)⟩

/-- C4 witness: overwriting the entry for "u" with document 2 via a successful
set leaves exactly document 2 stored with the parsed expiry. -/
theorem C4_cache_set_spec_witness :
    Cache.set ([("u", CacheEntry.mk (1 : Nat) 0)] : Cache Nat) "u" 2
        "Thu, 09 Nov 2017 17:27:14 GMT"
      = Except.ok [("u", CacheEntry.mk 2 1510248434)] :=
  ((C4_cache_set_spec ([("u", CacheEntry.mk (1 : Nat) 0)] : Cache Nat) "u" 2
      "Thu, 09 Nov 2017 17:27:14 GMT").2.1 1510248434 (by decide)).1

/-- C5: getExpiration parses the single RFC 1123-style layout
"Mon, 02 Jan 2006 15:04:05 MST" and nothing else: the documented example
yields exactly the absolute timestamp 2017-11-09T17:27:14 GMT (epoch
1510248434), and any input not matching the layout (missing or malformed
fields, unrecognized timezone token) yields a parse error, with no fallback
format attempted. -/
theorem C5_getExpiration_spec :
    getExpiration "Thu, 09 Nov 2017 17:27:14 GMT"
        = Except.ok (epochOfFields (ExpFields.mk 9 11 2017 17 27 14)) ∧
    epochOfFields (ExpFields.mk 9 11 2017 17 27 14) = 1510248434 ∧
    (∀ s, matchesExpiresFormat s = false → ∃ msg, getExpiration s = Except.error msg) ∧
    getExpiration "Thu, 09 Nov 2017 17:27:14"
        = Except.error "cannot parse value as expiration timestamp" ∧
    getExpiration "09 Nov 2017 17:27:14 GMT"
        = Except.error "cannot parse value as expiration timestamp" := by
  refine ⟨by decide, by decide, ?_, by decide, by decide⟩
  intro s hm
  unfold matchesExpiresFormat at hm
  unfold getExpiration
  cases hp : parseExpiresFields s with
  | none => exact ⟨_, rfl⟩
  | some f =>
    rw [hp] at hm
    simp at hm
    exact ⟨"expiration timestamp field out of range", by simp [hm]⟩

/-- C5 witness: the universal part of the theorem applied to the input "Mon",
which does not match the layout and yields a parse error. -/
theorem C5_getExpiration_spec_witness :
    ∃ msg, getExpiration "Mon" = Except.error msg :=
  C5_getExpiration_spec.2.2.1 "Mon" (by decide)

/-- C6: a successful Cache.set whose parsed expiration is strictly in the
future of the current time, followed immediately by Cache.get on the same url,
returns exactly the document that was stored. -/
theorem C6_cache_roundtrip {δ : Type} (c : Cache δ) (u : String) (d : δ) (h : String)
    (now t : Int) (hparse : getExpiration h = Except.ok t) (hfut : now < t) :
    ∃ c2, Cache.set c u d h = Except.ok c2 ∧ Cache.get c2 u now = (some d, c2) := by
  refine ⟨Cache.insert c u (CacheEntry.mk d t), by simp [Cache.set, hparse], ?_⟩
  simp [Cache.get, lookup_insert, Int.not_lt.mpr (le_of_lt hfut)]

/-- C6 witness: the round trip on an empty cache with the documented Expires
header, read at epoch time 0 (before the 2017 expiry). -/
theorem C6_cache_roundtrip_witness :
    ∃ c2, Cache.set ([] : Cache Nat) "u" 5 "Thu, 09 Nov 2017 17:27:14 GMT"
        = Except.ok c2 ∧ Cache.get c2 "u" 0 = (some 5, c2) :=
  C6_cache_roundtrip ([] : Cache Nat) "u" 5 "Thu, 09 Nov 2017 17:27:14 GMT" 0 1510248434
    (by decide) (by decide)

/-- C2: ESI.Get builds the canonical URL as BaseURL + version + "/" +
formatted path + "/" (the path template with positional arguments substituted
by format-string rules); if the cache holds an unexpired entry for that exact
URL the cached document is returned with zero transport calls; on a miss with
a successful round trip, JSON parse and Expires parse, exactly one transport
GET is performed, the parsed document is stored in the cache under that URL
with the expiry parsed from the Expires header, and the document is
returned. -/
theorem C2_get_spec {δ : Type} (e : ESI δ) (transport : String → Except String Response)
    (parseJSON : String → Option δ) (now : Int) (path : String) (args : List FmtArg)
    (url : String) (hurl : url = BaseURL ++ e.Version ++ "/" ++ sprintf path args ++ "/") :
    (∀ d : δ, (Cache.get e.cache url now).1 = some d →
        ESI.Get e transport parseJSON now path args
          = ⟨Except.ok d, { e with cache := (Cache.get e.cache url now).2 }, 0⟩) ∧
    ((Cache.get e.cache url now).1 = none →
      ∀ (resp : Response) (d : δ) (t : Int),
        transport url = Except.ok resp →
        parseJSON resp.body = some d →
        getExpiration resp.expiresHeader = Except.ok t →
        ESI.Get e transport parseJSON now path args
          = ⟨Except.ok d,
             { e with cache :=
                 Cache.insert (Cache.get e.cache url now).2 url (CacheEntry.mk d t) }, 1⟩) := by
  subst hurl
  constructor
  · intro d hd
    simp only [ESI.Get, hd]
  · intro hmiss resp d t htr hjson hexp
    simp only [ESI.Get, hmiss, htr, hjson, Cache.set, hexp]

/-- C2 witness: a Get with path "wars" on an empty cache, with a transport
delivering the documented Expires header and a body parsed as document 7:
one transport call, document 7 returned, and the cache populated under the
canonical URL with the parsed expiry. -/
theorem C2_get_spec_witness :
    ESI.Get (ESI.mk ([] : Cache Nat) "latest" "i" "s" "cb" "ua" "" "" "")
        (fun _ => Except.ok (Response.mk "Thu, 09 Nov 2017 17:27:14 GMT" "body"))
        (fun _ => some 7) 0 "wars" []
      = ⟨Except.ok 7,
         ESI.mk [("https://esi.tech.ccp.is/latest/wars/", CacheEntry.mk 7 1510248434)]
           "latest" "i" "s" "cb" "ua" "" "" "", 1⟩ :=
  (C2_get_spec (ESI.mk ([] : Cache Nat) "latest" "i" "s" "cb" "ua" "" "" "")
      (fun _ => Except.ok (Response.mk "Thu, 09 Nov 2017 17:27:14 GMT" "body"))
      (fun _ => some 7) 0 "wars" [] "https://esi.tech.ccp.is/latest/wars/" (by decide)).2
    (by decide) (Response.mk "Thu, 09 Nov 2017 17:27:14 GMT" "body") 7 1510248434 rfl rfl
    (by decide)

/-- C3: on a Get cache miss whose transport call and JSON parse succeed but
whose Expires header fails to parse, the overall Get still returns the fetched
document as a success with no entry stored for that URL (the cache-write
parse failure is the only swallowed error); transport errors and JSON body
parse failures are returned to the immediate caller as explicit errors. -/
theorem C3_get_error_policy {δ : Type} (e : ESI δ)
    (transport : String → Except String Response) (parseJSON : String → Option δ)
    (now : Int) (path : String) (args : List FmtArg)
    (url : String) (hurl : url = BaseURL ++ e.Version ++ "/" ++ sprintf path args ++ "/") :
    (∀ resp d msg, (Cache.get e.cache url now).1 = none →
        transport url = Except.ok resp → parseJSON resp.body = some d →
        getExpiration resp.expiresHeader = Except.error msg →
        ESI.Get e transport parseJSON now path args
            = ⟨Except.ok d, { e with cache := (Cache.get e.cache url now).2 }, 1⟩ ∧
          Cache.lookup (ESI.Get e transport parseJSON now path args).state.cache url
            = none) ∧
    (∀ err, (Cache.get e.cache url now).1 = none → transport url = Except.error err →
        (ESI.Get e transport parseJSON now path args).result = Except.error err) ∧
    (∀ resp, (Cache.get e.cache url now).1 = none → transport url = Except.ok resp →
        parseJSON resp.body = none →
        (ESI.Get e transport parseJSON now path args).result
          = Except.error "Error converting response body to Gabs container") := by
  subst hurl
  refine ⟨?_, ?_, ?_⟩
  · intro resp d msg hmiss htr hjson hexp
    have hG : ESI.Get e transport parseJSON now path args
        = ⟨Except.ok d,
           { e with cache :=
               (Cache.get e.cache (BaseURL ++ e.Version ++ "/" ++ sprintf path args ++ "/")
                 now).2 }, 1⟩ := by
      simp only [ESI.Get, hmiss, htr, hjson, Cache.set, hexp]
    refine ⟨hG, ?_⟩
    rw [hG]
    exact get_none_lookup e.cache _ now hmiss
  · intro err hmiss htr
    simp only [ESI.Get, hmiss, htr]
  · intro resp hmiss htr hjson
    simp only [ESI.Get, hmiss, htr, hjson]

/-- C3 witness: a Get whose response carries the unparsable Expires value
"bad" still returns document 7 as a success, with the cache left empty. -/
theorem C3_get_error_policy_witness :
    ESI.Get (ESI.mk ([] : Cache Nat) "latest" "i" "s" "cb" "ua" "" "" "")
        (fun _ => Except.ok (Response.mk "bad" "body")) (fun _ => some 7) 0 "wars" []
      = ⟨Except.ok 7, ESI.mk ([] : Cache Nat) "latest" "i" "s" "cb" "ua" "" "" "", 1⟩ :=
  ((C3_get_error_policy (ESI.mk ([] : Cache Nat) "latest" "i" "s" "cb" "ua" "" "" "")
      (fun _ => Except.ok (Response.mk "bad" "body")) (fun _ => some 7) 0 "wars" []
      "https://esi.tech.ccp.is/latest/wars/" (by decide)).1 (Response.mk "bad" "body") 7
      "cannot parse value as expiration timestamp" rfl rfl rfl (by decide)).1

/-- C7: ESI.Post builds the URL the same way as Get with no argument
substitution, always performs exactly one transport call, leaves the ESI
state (cache included) unchanged, produces a result that does not depend on
the cache contents, returns the parsed JSON response on success and
propagates transport errors. -/
theorem C7_post_no_cache {δ : Type} (e : ESI δ)
    (transport : String → String → Except String Response)
    (parseJSON : String → Option δ) (path : String) (body : String)
    (url : String) (hurl : url = BaseURL ++ e.Version ++ "/" ++ path ++ "/") :
    (ESI.Post e transport parseJSON path body).state = e ∧
    (ESI.Post e transport parseJSON path body).calls = 1 ∧
    (∀ c2 : Cache δ,
        (ESI.Post { e with cache := c2 } transport parseJSON path body).result
          = (ESI.Post e transport parseJSON path body).result) ∧
    (∀ resp d, transport url body = Except.ok resp → parseJSON resp.body = some d →
        (ESI.Post e transport parseJSON path body).result = Except.ok d) ∧
    (∀ err, transport url body = Except.error err →
        (ESI.Post e transport parseJSON path body).result = Except.error err) := by
  subst hurl
  refine ⟨?_, ?_, ?_, ?_, ?_⟩
  · cases htr : transport (BaseURL ++ e.Version ++ "/" ++ path ++ "/") body with
    | error err => simp [ESI.Post, htr]
    | ok resp =>
      cases hp : parseJSON resp.body with
      | none => simp [ESI.Post, htr, hp]
      | some d => simp [ESI.Post, htr, hp]
  · cases htr : transport (BaseURL ++ e.Version ++ "/" ++ path ++ "/") body with
    | error err => simp [ESI.Post, htr]
    | ok resp =>
      cases hp : parseJSON resp.body with
      | none => simp [ESI.Post, htr, hp]
      | some d => simp [ESI.Post, htr, hp]
  · intro c2
    cases htr : transport (BaseURL ++ e.Version ++ "/" ++ path ++ "/") body with
    | error err => simp [ESI.Post, htr]
    | ok resp =>
      cases hp : parseJSON resp.body with
      | none => simp [ESI.Post, htr, hp]
      | some d => simp [ESI.Post, htr, hp]
  · intro resp d htr hp
    simp only [ESI.Post, htr, hp]
  · intro err htr
    simp only [ESI.Post, htr]

/-- C7 witness: a Post on a state whose cache already holds an entry still
performs its transport call and returns the parsed response document. -/
theorem C7_post_no_cache_witness :
    (ESI.Post (ESI.mk ([("https://esi.tech.ccp.is/latest/characters/affiliation/",
          CacheEntry.mk (9 : Nat) 99)] : Cache Nat) "latest" "i" "s" "cb" "ua" "" "" "")
        (fun _ _ => Except.ok (Response.mk "" "resp")) (fun _ => some 3)
        "characters/affiliation" "[100]").result
      = Except.ok 3 :=
  (C7_post_no_cache (ESI.mk ([("https://esi.tech.ccp.is/latest/characters/affiliation/",
        CacheEntry.mk (9 : Nat) 99)] : Cache Nat) "latest" "i" "s" "cb" "ua" "" "" "")
      (fun _ _ => Except.ok (Response.mk "" "resp")) (fun _ => some 3)
      "characters/affiliation" "[100]"
      "https://esi.tech.ccp.is/latest/characters/affiliation/" (by decide)).2.2.2.1
    (Response.mk "" "resp") 3 rfl rfl

/-- C8: GetAuthorizeURL returns the configuration error whenever any one of
client id, client secret, or callback URL is empty; when all three are
non-empty it deterministically returns the authorize endpoint followed by the
query parameters response_type=code, redirect_uri, client_id and scope in
that fixed order, with the values embedded as given (no additional
percent-encoding). -/
theorem C8_authorize_url_spec {δ : Type} (e : ESI δ) :
    ((e.ClientID = "" ∨ e.ClientSecret = "" ∨ e.ClientCallbackURL = "") →
        ESI.GetAuthorizeURL e
          = Except.error "Missing client data - cannot generate callback URL") ∧
    (e.ClientID ≠ "" → e.ClientSecret ≠ "" → e.ClientCallbackURL ≠ "" →
        ESI.GetAuthorizeURL e
          = Except.ok (AuthorizeURL ++ "?response_type=code&redirect_uri="
              ++ e.ClientCallbackURL ++ "&client_id=" ++ e.ClientID
              ++ "&scope=" ++ e.Scope)) := by
  constructor
  · intro h
    unfold ESI.GetAuthorizeURL
    rw [if_pos h]
  · intro h1 h2 h3
    simp [ESI.GetAuthorizeURL, h1, h2, h3]

/-- C8 witness: with all three credentials set, the generated URL is the
authorize endpoint with the four query parameters in the fixed order. -/
theorem C8_authorize_url_spec_witness :
    ESI.GetAuthorizeURL
        (ESI.mk ([] : Cache Nat) "latest" "myid" "mysecret" "https://cb/" "ua" "sc" "" "")
      = Except.ok (AuthorizeURL ++ "?response_type=code&redirect_uri="
          ++ "https://cb/" ++ "&client_id=" ++ "myid" ++ "&scope=" ++ "sc") :=
  (C8_authorize_url_spec
      (ESI.mk ([] : Cache Nat) "latest" "myid" "mysecret" "https://cb/" "ua" "sc" "" "")).2
    (by decide) (by decide) (by decide)

/-- C9: Authenticate fails exactly when the transport errors, the response
body is empty, the HTTP status is not 200, or the body cannot be unmarshalled
into the authenticateResponse shape; on success it stores the returned access
and refresh tokens into the session state, overwriting any prior values, and
returns success with no other change. -/
theorem C9_authenticate_spec {δ : Type} (e : ESI δ)
    (transport : String → Except String (Nat × String))
    (unmarshal : String → Option AuthenticateResponse) (code : String) :
    (∀ err, transport code = Except.error err →
        ESI.Authenticate e transport unmarshal code = (Except.error err, e)) ∧
    (∀ status body, transport code = Except.ok (status, body) →
      ((body = "" ∨ status ≠ 200) →
          ESI.Authenticate e transport unmarshal code
            = (Except.error "Response body is empty", e)) ∧
      (body ≠ "" → status = 200 →
        (unmarshal body = none →
            ESI.Authenticate e transport unmarshal code
              = (Except.error "cannot unmarshal response body", e)) ∧
        (∀ r, unmarshal body = some r →
            ESI.Authenticate e transport unmarshal code
              = (Except.ok (),
                 { e with AccessToken := r.AccessToken,
                          RefreshToken := r.RefreshToken })))) := by
  constructor
  · intro err htr
    simp [ESI.Authenticate, htr]
  · intro status body htr
    constructor
    · intro hbad
      rcases hbad with hb | hs
      · simp [ESI.Authenticate, htr, hb]
      · simp [ESI.Authenticate, htr, hs]
    · intro hbody hst
      constructor
      · intro hum
        simp [ESI.Authenticate, htr, hbody, hst, hum]
      · intro r hum
        simp [ESI.Authenticate, htr, hbody, hst, hum]

/-- C9 witness: a successful exchange (status 200, non-empty body,
unmarshallable) stores the returned tokens into the session state. -/
theorem C9_authenticate_spec_witness :
    ESI.Authenticate (ESI.mk ([] : Cache Nat) "latest" "i" "s" "cb" "ua" "" "oldA" "oldR")
        (fun _ => Except.ok (200, "respbody"))
        (fun _ => some (AuthenticateResponse.mk "newA" "Bearer" 1200 "newR")) "thecode"
      = (Except.ok (),
         ESI.mk ([] : Cache Nat) "latest" "i" "s" "cb" "ua" "" "newA" "newR") :=
  (((C9_authenticate_spec (ESI.mk ([] : Cache Nat) "latest" "i" "s" "cb" "ua" "" "oldA" "oldR")
      (fun _ => Except.ok (200, "respbody"))
      (fun _ => some (AuthenticateResponse.mk "newA" "Bearer" 1200 "newR")) "thecode").2
      200 "respbody" rfl).2 (by decide) rfl).2
    (AuthenticateResponse.mk "newA" "Bearer" 1200 "newR") rfl

/-- C10: on every failing path of Authenticate (transport-level failure,
empty body, non-200 status, or unmarshal failure) the session state keeps its
prior AccessToken and RefreshToken values: a failed code exchange never
clobbers previously stored tokens. -/
theorem C10_authenticate_failure_preserves_tokens {δ : Type} (e : ESI δ)
    (transport : String → Except String (Nat × String))
    (unmarshal : String → Option AuthenticateResponse) (code : String) (err : String)
    (hfail : (ESI.Authenticate e transport unmarshal code).1 = Except.error err) :
    (ESI.Authenticate e transport unmarshal code).2.AccessToken = e.AccessToken ∧
    (ESI.Authenticate e transport unmarshal code).2.RefreshToken = e.RefreshToken := by
  cases htr : transport code with
  | error e2 => simp [ESI.Authenticate, htr]
  | ok sb =>
    obtain ⟨status, body⟩ := sb
    by_cases hcond : body = "" ∨ status ≠ 200
    · rcases hcond with hb | hs
      · simp [ESI.Authenticate, htr, hb]
      · simp [ESI.Authenticate, htr, hs]
    · cases hum : unmarshal body with
      | none => simp [ESI.Authenticate, htr, hum, hcond]
      | some r =>
        exfalso
        simp [ESI.Authenticate, htr, hum, hcond] at hfail

/-- C10 witness: a transport failure leaves the previously stored tokens in
place. -/
theorem C10_authenticate_failure_preserves_tokens_witness :
    (ESI.Authenticate (ESI.mk ([] : Cache Nat) "latest" "i" "s" "cb" "ua" "" "tokA" "tokR")
        (fun _ => Except.error "network down") (fun _ => none) "thecode").2.AccessToken
      = "tokA" ∧
    (ESI.Authenticate (ESI.mk ([] : Cache Nat) "latest" "i" "s" "cb" "ua" "" "tokA" "tokR")
        (fun _ => Except.error "network down") (fun _ => none) "thecode").2.RefreshToken
      = "tokR" :=
  C10_authenticate_failure_preserves_tokens
    (ESI.mk ([] : Cache Nat) "latest" "i" "s" "cb" "ua" "" "tokA" "tokR")
    (fun _ => Except.error "network down") (fun _ => none) "thecode" "network down"
    (by decide)

end Goesi





